import Mathlib

/-!
Verification of the Substack2Markdown scraper (`substack_scraper.py`)
against its natural-language specification.

The Python program is shallowly embedded: pure helpers become Lean
functions over `String` / `List Char`; the filesystem becomes an explicit
`FS` value threaded through the persistence functions; the network, the
browser session and the two external converter libraries (`html2text`,
`markdown`) are abstracted as function-valued fields of explicit "world"
structures, so that each definition stays executable on concrete inputs.
Exceptions are modelled with `Except`: a Python function that can raise
returns `Except String α`, and a `try/except` boundary is a `match` on
that result.
-/

/-! ## Basic string helpers

Python's `str.split(sep)` for a one-character separator.  Like Python
(and unlike "split into nonempty pieces"), splitting the empty string
yields `[[]]`, and separators at the ends yield empty pieces.
-/

def splitOnChar (sep : Char) : List Char → List (List Char)
  | [] => [[]]
  | c :: rest =>
    if c = sep then [] :: splitOnChar sep rest
    else
      match splitOnChar sep rest with
      | [] => [[c]]
      | h :: t => (c :: h) :: t

/-- Python `"/".join`-style joining of path segments with `'/'`. -/
def joinSegs : List (List Char) → List Char
  | [] => []
  | [x] => x
  | x :: xs => x ++ '/' :: joinSegs xs

/-- Python `str.strip()`: drop leading and trailing whitespace. -/
def pyStrip (s : String) : String :=
  String.mk (((s.toList.dropWhile Char.isWhitespace).reverse.dropWhile Char.isWhitespace).reverse)

/-- Python `str.isdigit()` (ASCII fragment): nonempty and all digits. -/
def isPyDigit (s : String) : Bool :=
  !(s.toList.isEmpty) && s.toList.all Char.isDigit

/-- Boolean contiguous-subsequence search (needle, haystack). -/
def containsSeq (needle : List Char) : List Char → Bool
  | [] => needle.isEmpty
  | c :: rest => needle.isPrefixOf (c :: rest) || containsSeq needle rest

/-- Python `needle in hay` on strings: substring containment. -/
def substrContains (hay needle : String) : Bool :=
  containsSeq needle.toList hay.toList

/-- Python `str.lower()` (ASCII fragment). -/
def pyLower (s : String) : String :=
  String.mk (s.toList.map Char.toLower)

/-! ## `urlparse(url).netloc`

Model of the part of `urllib.parse.urlparse` the program uses: the
network location.  A scheme prefix `scheme:` is removed when the text
before the first `':'` is a valid scheme (first char alphabetic, rest
alphanumeric or `+`/`-`/`.`); the netloc is then present exactly when
the remainder starts with `//`, and extends to the first `/`, `?` or
`#`.
-/

def schemeChar (c : Char) : Bool :=
  c.isAlphanum || c == '+' || c == '-' || c == '.'

def validScheme : List Char → Bool
  | [] => false
  | c :: rest => c.isAlpha && rest.all schemeChar

def removeScheme (url : List Char) : List Char :=
  match url.dropWhile (fun c => c != ':') with
  | ':' :: rest => if validScheme (url.takeWhile (fun c => c != ':')) then rest else url
  | _ => url

def isNetlocEnd (c : Char) : Bool :=
  c == '/' || c == '?' || c == '#'

def urlNetloc (url : List Char) : List Char :=
  match removeScheme url with
  | '/' :: '/' :: rest => rest.takeWhile (fun c => !isNetlocEnd c)
  | _ => []

/-! ## `extract_main_part` (substack_scraper.py lines 32-59) -/

/-- The recognized second-level labels of multi-part TLDs
(`['co', 'com', 'net', 'org', 'gov', 'edu']` in the source). -/
def multiTldSeconds : List (List Char) :=
  ["co".toList, "com".toList, "net".toList, "org".toList, "gov".toList, "edu".toList]

/--
Body of `extract_main_part` after `urlparse(url).netloc.split('.')`.
Mirrors the Python control flow: the substack branch returns `parts[0]`;
otherwise, inside `if len(parts) >= 2`, a leading `'www'` is dropped and
the multi-part-TLD / second-to-last-label branches return; the final
`return parts[0] if parts else 'unknown'` reads the (possibly stripped)
`parts`.
-/
def extract_main_part_parts (parts : List (List Char)) : List Char :=
  if parts.length ≥ 2 ∧ parts.getD (parts.length - 2) [] = "substack".toList ∧
      parts.getD (parts.length - 1) [] = "com".toList then
    parts.headD []
  else
    let parts2 := if parts.length ≥ 2 ∧ parts.headD [] = "www".toList then parts.tail else parts
    if parts.length ≥ 2 ∧ parts2.length ≥ 3 ∧ parts2.getD (parts2.length - 2) [] ∈ multiTldSeconds then
      parts2.getD (parts2.length - 3) []
    else if parts.length ≥ 2 ∧ parts2.length ≥ 2 then
      parts2.getD (parts2.length - 2) []
    else
      match parts2 with
      | [] => "unknown".toList
      | p0 :: _ => p0

def extract_main_part (url : String) : String :=
  String.mk (extract_main_part_parts (splitOnChar '.' (urlNetloc url.toList)))

/-! ## `filter_urls` (lines 188-193) and the default keyword set (line 125) -/

/-- `self.keywords = ["about", "archive", "podcast"]`. -/
def default_keywords : List String := ["about", "archive", "podcast"]

/-- `[url for url in urls if all(keyword not in url for keyword in keywords)]`. -/
def filter_urls (urls keywords : List String) : List String :=
  urls.filter (fun url => keywords.all (fun keyword => !(substrContains url keyword)))

/-! ## Content extraction (`extract_post_data`, lines 303-329)

A fetched document (`BeautifulSoup` object) is abstracted by the texts
of the elements the extractor queries.  `none` models a selector that
matches nothing.  `availableContent` is the `str(...)` of the
`div.available-content` query.
-/

structure Soup where
  /-- text of `soup.select_one("h1.post-title, h2")`; `none` = no match,
  so `.text` raises `AttributeError`. -/
  titleText : Option String
  /-- text of `soup.select_one("h3.subtitle")`. -/
  subtitleText : Option String
  /-- text of the `soup.find("div", class_="pencraft pc-reset ...")` date element. -/
  dateText : Option String
  /-- text of `soup.select_one("a.post-ufi-button .label")`. -/
  likeCountText : Option String
  /-- `str(soup.select_one("div.available-content"))`. -/
  availableContent : String

/-- `combine_metadata_and_content` (lines 284-301). -/
def combine_metadata_and_content (title subtitle date like_count content : String) : String :=
  let metadata := "# " ++ title ++ "\n\n"
  let metadata := if subtitle ≠ "" then metadata ++ "## " ++ subtitle ++ "\n\n" else metadata
  let metadata := metadata ++ "**" ++ date ++ "**\n\n"
  let metadata := metadata ++ "**Likes:** " ++ like_count ++ "\n\n"
  metadata ++ content

/--
`extract_post_data` (lines 303-329).  `html2text` — the external
HTML-to-Markdown converter (`html_to_md` wraps it) — is passed in as a
function.  Returns `none` when the title selector matches nothing (the
`AttributeError` from `.text` on `None`, a per-post extraction failure);
otherwise `some (title, subtitle, like_count, date, md_content)` in the
source's return order.
-/
def extract_post_data (html2text : String → String) (soup : Soup) :
    Option (String × String × String × String × String) :=
  match soup.titleText with
  | none => none
  | some t =>
    let title := pyStrip t
    let subtitle := match soup.subtitleText with
      | some s => pyStrip s
      | none => ""
    let date := match soup.dateText with
      | some d => pyStrip d
      | none => "Date not found"
    let like_count := match soup.likeCountText with
      | some l => if isPyDigit (pyStrip l) then pyStrip l else "0"
      | none => "0"
    let content := soup.availableContent
    let md := html2text content
    some (title, subtitle, like_count, date,
          combine_metadata_and_content title subtitle date like_count md)

/-! ## Filesystem and persistence (`save_to_file`, `save_to_html_file`,
`save_essays_data_to_json`; lines 207-223, 233-266, 335-347)

The filesystem is explicit: `files` holds the Markdown/HTML artifacts as
(path, content) pairs in creation order, and `index` holds the parsed
content of the per-writer JSON index file (`none` = the file does not
exist).  The JSON index entry dict becomes `PostRecord`.
-/

structure PostRecord where
  title : String
  subtitle : String
  like_count : String
  date : String
  file_link : String
  html_link : String
deriving DecidableEq, Repr

structure FS where
  files : List (String × String)
  index : Option (List PostRecord)
deriving DecidableEq, Repr

def FS.paths (fs : FS) : List String := fs.files.map Prod.fst

/-- `os.path.exists` on the modelled filesystem. -/
def pathExists (fs : FS) (p : String) : Bool := fs.paths.contains p

/-- `os.path.join(a, b)` for the relative paths the program builds. -/
def pathJoin (a b : String) : String :=
  if a = "" then b else a ++ "/" ++ b

/-- `os.path.dirname`. -/
def dirnameOf (p : String) : String :=
  String.mk (joinSegs (splitOnChar '/' p.toList).dropLast)

/-- `os.path.relpath(path, start)` for the normalized relative paths the
program uses: strip the common segment prefix, go up with `..` for the
remaining `start` segments. -/
def commonSegsLen : List (List Char) → List (List Char) → Nat
  | a :: as, b :: bs => if a = b then commonSegsLen as bs + 1 else 0
  | _, _ => 0

def relpathOf (path start : String) : String :=
  let p := splitOnChar '/' path.toList
  let s := splitOnChar '/' start.toList
  let n := commonSegsLen p s
  String.mk (joinSegs (List.replicate (s.length - n) "..".toList ++ p.drop n))

/-- `save_to_file` (lines 207-223): a no-op (with a logged notice) when
the target exists, otherwise creates it. -/
def save_to_file (fs : FS) (filepath content : String) : FS :=
  if pathExists fs filepath then fs
  else { fs with files := fs.files ++ [(filepath, content)] }

/-- Plain `open(path, 'w')`: create or overwrite. -/
def writeFile (fs : FS) (p c : String) : FS :=
  if pathExists fs p then
    { fs with files := fs.files.map (fun e => if e.1 = p then (p, c) else e) }
  else { fs with files := fs.files ++ [(p, c)] }

/-- The HTML page template of `save_to_html_file` (f-string, lines 250-263). -/
def htmlPageTemplate (css_path content : String) : String :=
  "<!DOCTYPE html>\n<html lang=\"en\">\n<head>\n    <meta charset=\"UTF-8\">\n" ++
  "    <meta name=\"viewport\" content=\"width=device-width, initial-scale=1.0\">\n" ++
  "    <title>Markdown Content</title>\n    <link rel=\"stylesheet\" href=\"" ++ css_path ++
  "\">\n</head>\n<body>\n    <main class=\"markdown-content\">\n" ++ content ++
  "\n    </main>\n</body>\n</html>"

/-! ## Scraper configuration (`BaseSubstackScraper.__init__`, lines 96-126) -/

/-- `__init__` appends a trailing `/` to the base URL when missing. -/
def normalizeBaseUrl (u : String) : String :=
  match u.toList.getLast? with
  | some '/' => u
  | _ => u ++ "/"

def writer_name (base_substack_url : String) : String :=
  extract_main_part (normalizeBaseUrl base_substack_url)

def base_output_dir (u : String) : String := "substacks/" ++ writer_name u

def md_save_dir (u : String) : String := base_output_dir u ++ "/markdown"

def html_save_dir (u : String) : String := base_output_dir u ++ "/html"

/-- `save_to_html_file` (lines 233-266): always writes (no existence
check), linking the stylesheet by a path computed with `os.path.relpath`. -/
def save_to_html_file (base : String) (fs : FS) (filepath content : String) : FS :=
  let html_dir := dirnameOf filepath
  let assets_dir := pathJoin (base_output_dir base) "assets"
  let css_path := relpathOf (pathJoin (pathJoin assets_dir "css") "essay-styles.css") html_dir
  writeFile fs filepath (htmlPageTemplate css_path content)

/-- `save_essays_data_to_json` (lines 335-347): loads any existing index,
appends each new record that is not already present in the existing
records (`data not in existing_data`), and writes the result back. -/
def save_essays_data_to_json (fs : FS) (essays_data : List PostRecord) : FS :=
  match fs.index with
  | some existing_data =>
    { fs with index := some (existing_data ++ essays_data.filter (fun d => decide (d ∉ existing_data))) }
  | none => { fs with index := some essays_data }

/-! ## Fetch strategies (`get_url_soup`; lines 398-410 and 566-598) -/

/-- State of the network/page world for one anonymous fetch
(`SubstackScraper.get_url_soup`, lines 398-410). -/
structure AnonPage where
  /-- `requests.get` / parsing raises. -/
  requestRaises : Bool
  /-- the parsed document has an `h2.paywall-title` element. -/
  paywallTitle : Bool
  soup : Soup

/-- `SubstackScraper.get_url_soup`: on any exception re-raises
`ValueError("Error fetching page: ...")`; on a paywall marker returns
`None` (a skip signal); otherwise returns the soup. -/
def SubstackScraper.get_url_soup (page : AnonPage) : Except String (Option Soup) :=
  if page.requestRaises then Except.error "Error fetching page"
  else if page.paywallTitle then Except.ok none
  else Except.ok (some page.soup)

/-- `WebDriverWait(self.driver, 5, 0.5)`: at most 10 polls. -/
def premiumPollCount : Nat := 10

/-- State of the browser world for one authenticated fetch
(`PremiumSubstackScraper.get_url_soup`, lines 566-598). -/
structure PremiumPage where
  /-- `self.driver.get(url)` raises (navigation/session failure). -/
  navRaises : Bool
  /-- at poll `j`, one of the four readiness selectors
  (`div.available-content`, `h1.post-title`, `h2.paywall-title`,
  `.post-content`) matches. -/
  markerAt : Nat → Bool
  /-- `self.driver.page_source` when the wait ends. -/
  pageSource : String

/-- The `wait.until(...)` call: first poll at which a readiness marker is
present, `none` when the bounded wait times out. -/
def waitUntilMarker (pg : PremiumPage) : Option Nat :=
  (List.range premiumPollCount).find? (fun j => pg.markerAt j)

/-- `PremiumSubstackScraper.get_url_soup`: a navigation failure re-raises
`ValueError`; the readiness wait is wrapped in its own `try/except` whose
handler only prints, after which the current `page_source` is parsed and
returned in both cases. -/
def PremiumSubstackScraper.get_url_soup (pg : PremiumPage) : Except String String :=
  if pg.navRaises then Except.error "Error fetching page"
  else
    match waitUntilMarker pg with
    | some _ => Except.ok pg.pageSource
    | none => Except.ok pg.pageSource

/-! ## The orchestrating per-post loop (`scrape_posts`, lines 349-391)

`ScrapeEnv` packages the abstract fetch method (the `get_url_soup`
dispatch of the concrete scraper class) and the two external converter
libraries.  `tryProcessUrl` is the body of the per-iteration `try`
block; an `Except.error` is an exception reaching the per-iteration
`except Exception` handler.
-/

structure ScrapeEnv where
  get_url_soup : String → Except String (Option Soup)
  html2text : String → String
  markdown : String → String

/-- `get_filename_from_url` (lines 268-282). -/
def get_filename_from_url (url : String) (filetype : String) : String :=
  let ft := if filetype.toList.headD ' ' = '.' then filetype else "." ++ filetype
  String.mk ((splitOnChar '/' url.toList).getLastD []) ++ ft

def mdPathOf (base url : String) : String :=
  pathJoin (md_save_dir base) (get_filename_from_url url ".md")

def htmlPathOf (base url : String) : String :=
  pathJoin (html_save_dir base) (get_filename_from_url url ".html")

/-- The index-entry dict appended to `essays_data` (lines 375-382). -/
def mkPostRecord (base url title subtitle like_count date : String) : PostRecord :=
  { title := title, subtitle := subtitle, like_count := like_count, date := date,
    file_link := relpathOf (mdPathOf base url) (base_output_dir base),
    html_link := relpathOf (htmlPathOf base url) (base_output_dir base) }

/-- Result of one iteration's `try` body: either the normal path (with
the updated filesystem and the record to append, if any), or the
`soup is None` path (`total += 1; continue`, skipping `count += 1`). -/
inductive StepOutcome where
  | counted (fs : FS) (record : Option PostRecord)
  | skippedTotal (fs : FS)

/-- The body of the per-iteration `try` block of `scrape_posts`:
if the Markdown target exists, nothing is fetched; otherwise fetch,
extract, persist Markdown (create-if-absent), render and persist the
HTML mirror, and produce the index record. -/
def tryProcessUrl (env : ScrapeEnv) (base url : String) (fs : FS) : Except String StepOutcome :=
  if pathExists fs (mdPathOf base url) then
    Except.ok (StepOutcome.counted fs none)
  else
    match env.get_url_soup url with
    | Except.error e => Except.error e
    | Except.ok none => Except.ok (StepOutcome.skippedTotal fs)
    | Except.ok (some soup) =>
      match extract_post_data env.html2text soup with
      | none => Except.error "AttributeError: NoneType object has no attribute text"
      | some (title, subtitle, like_count, date, md) =>
        let fs1 := save_to_file fs (mdPathOf base url) md
        let html_content := env.markdown md
        let fs2 := save_to_html_file base fs1 (htmlPathOf base url) html_content
        Except.ok (StepOutcome.counted fs2 (some (mkPostRecord base url title subtitle like_count date)))

/-- The `for url in tqdm(self.post_urls, ...)` loop of `scrape_posts`:
an exception from the `try` body is caught (logged) and the loop moves
on; `count` increments after every non-`continue` iteration, and the
loop breaks when `count` reaches a nonzero `num_posts_to_scrape`. -/
def scrapeLoop (env : ScrapeEnv) (base : String) (num : Nat) :
    List String → FS → List PostRecord → Nat → FS × List PostRecord
  | [], fs, essays_data, _ => (fs, essays_data)
  | url :: rest, fs, essays_data, count =>
    match tryProcessUrl env base url fs with
    | Except.ok (StepOutcome.skippedTotal fs1) =>
      scrapeLoop env base num rest fs1 essays_data count
    | Except.ok (StepOutcome.counted fs1 record) =>
      let essays_data1 := match record with
        | some r => essays_data ++ [r]
        | none => essays_data
      if num ≠ 0 ∧ count + 1 = num then (fs1, essays_data1)
      else scrapeLoop env base num rest fs1 essays_data1 (count + 1)
    | Except.error _ =>
      if num ≠ 0 ∧ count + 1 = num then (fs, essays_data)
      else scrapeLoop env base num rest fs essays_data (count + 1)

/-- `scrape_posts` (lines 349-391): run the loop, then merge this run's
records into the per-writer JSON index.  (The trailing
`generate_html_file` call regenerates the browsable index page from that
JSON file — excluded pure templating.) -/
def scrape_posts (env : ScrapeEnv) (base : String) (post_urls : List String)
    (num_posts_to_scrape : Nat) (fs : FS) : FS :=
  let r := scrapeLoop env base num_posts_to_scrape post_urls fs [] 0
  save_essays_data_to_json r.1 r.2

/-! ## URL discovery (`get_all_post_urls`, `fetch_urls_from_sitemap`,
`fetch_urls_from_feed`; lines 143-186)

The network and the `xml.etree.ElementTree` parser are abstracted by a
`DiscoveryWorld`.  `parseXml` models `ET.fromstring`, which raises
`ParseError` on malformed input (`Except.error`); a successfully parsed
document is abstracted by the two element views the program queries.
-/

structure HttpResponse where
  ok : Bool
  status_code : Nat
  content : String

/-- One `<item>` of the feed: `none` = no `<link>` child; `some t` = a
`<link>` child whose `.text` is `t` (`none` inside = empty element). -/
structure FeedItem where
  linkText : Option (Option String)

structure XmlDoc where
  /-- texts of the `{http://www.sitemaps.org/schemas/sitemap/0.9}loc`
  elements found by `root.iter`. -/
  sitemapLocTexts : List String
  /-- the `root.findall('.//item')` elements. -/
  items : List FeedItem

structure DiscoveryWorld where
  http_get : String → HttpResponse
  parseXml : String → Except String XmlDoc

/-- `fetch_urls_from_sitemap` (lines 152-165): a non-success response is
logged and yields `[]` (no retry); a success response is parsed by
`ET.fromstring`, which may raise. -/
def fetch_urls_from_sitemap (w : DiscoveryWorld) (base : String) : Except String (List String) :=
  let sitemap_url := normalizeBaseUrl base ++ "sitemap.xml"
  let response := w.http_get sitemap_url
  if !response.ok then Except.ok []
  else
    match w.parseXml response.content with
    | Except.error e => Except.error e
    | Except.ok root => Except.ok root.sitemapLocTexts

/-- `fetch_urls_from_feed` (lines 167-186): a non-success response is
logged and yields `[]`; otherwise collect, in order, the text of each
item's `<link>` when the element is present and its text truthy. -/
def fetch_urls_from_feed (w : DiscoveryWorld) (base : String) : Except String (List String) :=
  let feed_url := normalizeBaseUrl base ++ "feed.xml"
  let response := w.http_get feed_url
  if !response.ok then Except.ok []
  else
    match w.parseXml response.content with
    | Except.error e => Except.error e
    | Except.ok root =>
      Except.ok (root.items.foldr
        (fun item acc =>
          match item.linkText with
          | some (some t) => if t ≠ "" then t :: acc else acc
          | _ => acc) [])

/-- `get_all_post_urls` (lines 143-150): sitemap first; when it yields an
empty (falsy) list, fall back to the feed; then filter by keywords. -/
def get_all_post_urls (w : DiscoveryWorld) (base : String) (keywords : List String) :
    Except String (List String) :=
  match fetch_urls_from_sitemap w base with
  | Except.error e => Except.error e
  | Except.ok urls =>
    match (if urls.isEmpty then fetch_urls_from_feed w base else Except.ok urls) with
    | Except.error e => Except.error e
    | Except.ok urls1 => Except.ok (filter_urls urls1 keywords)

/-! ## The login state machine (`PremiumSubstackScraper.login` and
`is_login_failed`; lines 455-564)

The browser is abstracted by a `LoginWorld`: `urlAt i` / `errAt i` are
`driver.current_url` and the displayed `error-container` text observed
at the `i`-th poll of the challenge wait (one poll per 10-second sleep),
and the `final*` fields are the observations of the `is_login_failed`
check that runs after the wait.
-/

/-- The countdown `range(120, 0, -10)` of the manual-CAPTCHA wait:
twelve 10-second sleeps. -/
def loginCountdown : List Nat := (List.range 12).map (fun i => 120 - 10 * i)

def substackSignInUrl : String := "https://substack.com/sign-in"

/-- `'substack.com/sign-in' in url` — the success check is substring
containment on the current URL, not URL equality. -/
def urlOnSignIn (url : String) : Bool :=
  substrContains url "substack.com/sign-in"

/-- `"captcha" in error_text.lower()`. -/
def errStillCaptcha (t : String) : Bool :=
  substrContains (pyLower t) "captcha"

structure LoginWorld where
  /-- the credential phase (click password option, fill fields, submit)
  raises, jumping to the `except` handler before any poll. -/
  credentialPhaseRaises : Bool
  urlAt : Nat → String
  errAt : Nat → Option String
  /-- displayed `error-container` text at the final check. -/
  finalErr : Option String
  finalUrl : String
  /-- displayed texts of `.error, .alert-error, [role='alert']` elements
  at the final check. -/
  finalAlerts : List String

/-- The polling loop (lines 500-518): sleep 10s, succeed (early
`return`) when the current URL no longer contains the sign-in URL;
on a displayed error whose text does not mention "captcha", `break`.
Returns `true` iff the early `return` fires within the countdown. -/
def loginChallengeWait (w : LoginWorld) : List Nat → Nat → Bool
  | [], _ => false
  | _ :: rest, p =>
    if !(urlOnSignIn (w.urlAt p)) then true
    else
      match w.errAt p with
      | some errText =>
        if errStillCaptcha errText then loginChallengeWait w rest (p + 1) else false
      | none => loginChallengeWait w rest (p + 1)

/-- `is_login_failed` (lines 539-564). -/
def is_login_failed (w : LoginWorld) : Bool :=
  if w.finalErr.isSome then true
  else if urlOnSignIn w.finalUrl then true
  else w.finalAlerts.any (fun t => !(pyStrip t == ""))

inductive LoginResult where
  | success
  | failure
deriving DecidableEq, Repr

/-- `login` (lines 455-537): on an early successful poll, return; in
every other case (budget exhausted, error `break`, or an exception in
the credential phase) run the final `is_login_failed` check, and raise
`ValueError` — listing candidate causes: CAPTCHA unsolved, invalid
credentials, account locked, sign-in page structure changed — when it
reports failure.  `LoginResult.failure` is that raise. -/
def login (w : LoginWorld) : LoginResult :=
  let earlyReturn :=
    if w.credentialPhaseRaises then false
    else loginChallengeWait w loginCountdown 0
  if earlyReturn then LoginResult.success
  else if is_login_failed w then LoginResult.failure
  else LoginResult.success

/-! ## Concrete worlds used to instantiate and to refute claims -/

def emptyFS : FS := { files := [], index := none }

/-- A `ScrapeEnv` whose fetch method is the anonymous scraper's
`get_url_soup` run against a per-URL network world. -/
def anonScrapeEnv (world : String → AnonPage) (h2t mdr : String → String) : ScrapeEnv :=
  { get_url_soup := fun url => SubstackScraper.get_url_soup (world url),
    html2text := h2t, markdown := mdr }

def exSoupOne : Soup :=
  { titleText := some "Post One", subtitleText := some "The first post",
    dateText := some "Jan 01, 2025", likeCountText := some "5",
    availableContent := "<p>alpha</p>" }

/-- A document with no title element: `extract_post_data` raises on it. -/
def exSoupTwo : Soup :=
  { titleText := none, subtitleText := none, dateText := none,
    likeCountText := none, availableContent := "<p>beta</p>" }

def exSoupThree : Soup :=
  { titleText := some "Post Three", subtitleText := some "",
    dateText := some "Jan 03, 2025", likeCountText := some "7",
    availableContent := "<p>gamma</p>" }

def exBase : String := "https://example.substack.com/"

/-- Three candidate posts; extraction of the 2nd raises (missing title). -/
def exEnv : ScrapeEnv :=
  { get_url_soup := fun url =>
      if url = "https://example.substack.com/p/one" then Except.ok (some exSoupOne)
      else if url = "https://example.substack.com/p/two" then Except.ok (some exSoupTwo)
      else Except.ok (some exSoupThree),
    html2text := fun h => "md[" ++ h ++ "]",
    markdown := fun m => "html[" ++ m ++ "]" }

def exUrls : List String :=
  ["https://example.substack.com/p/one", "https://example.substack.com/p/two",
   "https://example.substack.com/p/three"]

def exRecOne : PostRecord :=
  { title := "Post One", subtitle := "The first post", like_count := "5",
    date := "Jan 01, 2025", file_link := "markdown/one.md", html_link := "html/one.html" }

def exRecThree : PostRecord :=
  { title := "Post Three", subtitle := "", like_count := "7",
    date := "Jan 03, 2025", file_link := "markdown/three.md", html_link := "html/three.html" }

def soupAlpha : Soup :=
  { titleText := some "Alpha", subtitleText := some "First",
    dateText := some "Feb 01, 2025", likeCountText := some "2",
    availableContent := "<p>a</p>" }

def soupGamma : Soup :=
  { titleText := some "Gamma", subtitleText := some "Third",
    dateText := some "Feb 03, 2025", likeCountText := some "9",
    availableContent := "<p>c</p>" }

/-- A network world for the anonymous scraper in which fetching the 2nd
post raises the navigation/session-level `ValueError`. -/
def worldFour : String → AnonPage := fun url =>
  if url = "https://casefour.substack.com/p/beta" then
    { requestRaises := true, paywallTitle := false, soup := soupAlpha }
  else if url = "https://casefour.substack.com/p/alpha" then
    { requestRaises := false, paywallTitle := false, soup := soupAlpha }
  else
    { requestRaises := false, paywallTitle := false, soup := soupGamma }

def fourH2t : String → String := fun h => "m(" ++ h ++ ")"

def fourMd : String → String := fun m => "h(" ++ m ++ ")"

def baseFour : String := "https://casefour.substack.com/"

def urlsFour : List String :=
  ["https://casefour.substack.com/p/alpha", "https://casefour.substack.com/p/beta",
   "https://casefour.substack.com/p/gamma"]

def recAlpha : PostRecord :=
  { title := "Alpha", subtitle := "First", like_count := "2",
    date := "Feb 01, 2025", file_link := "markdown/alpha.md", html_link := "html/alpha.html" }

def recGamma : PostRecord :=
  { title := "Gamma", subtitle := "Third", like_count := "9",
    date := "Feb 03, 2025", file_link := "markdown/gamma.md", html_link := "html/gamma.html" }

/-- Discovery world: the sitemap endpoint answers 200 with malformed XML
(`ET.fromstring` raises), while the feed endpoint would answer with one
post URL. -/
def discWorldParseFail : DiscoveryWorld :=
  { http_get := fun url =>
      if url = "https://site.substack.com/sitemap.xml" then
        { ok := true, status_code := 200, content := "<urlset><loc>broken" }
      else
        { ok := true, status_code := 200, content := "<rss/>" },
    parseXml := fun s =>
      if s = "<urlset><loc>broken" then Except.error "ParseError: no element found"
      else Except.ok { sitemapLocTexts := [],
                       items := [{ linkText := some (some "https://site.substack.com/p/recent") }] } }

/-- Discovery world: the sitemap endpoint answers 404 and the feed
endpoint has one post URL. -/
def discWorld404 : DiscoveryWorld :=
  { http_get := fun url =>
      if url = "https://site2.substack.com/sitemap.xml" then
        { ok := false, status_code := 404, content := "" }
      else
        { ok := true, status_code := 200, content := "<rss>feed</rss>" },
    parseXml := fun s =>
      if s = "<rss>feed</rss>" then
        Except.ok { sitemapLocTexts := [],
                    items := [{ linkText := some (some "https://site2.substack.com/p/a") }] }
      else Except.error "ParseError: not well-formed" }

/-- Login world stuck on the sign-in page at every poll and at the final
check, with no error container displayed. -/
def wStuckSignIn : LoginWorld :=
  { credentialPhaseRaises := false,
    urlAt := fun _ => "https://substack.com/sign-in",
    errAt := fun _ => none,
    finalErr := none,
    finalUrl := "https://substack.com/sign-in",
    finalAlerts := [] }

/-- Login world whose current URL never EQUALS the sign-in surface (it
carries a query string) but always contains it as a substring. -/
def wQuerySignIn : LoginWorld :=
  { credentialPhaseRaises := false,
    urlAt := fun _ => "https://substack.com/sign-in?error=retry",
    errAt := fun _ => none,
    finalErr := none,
    finalUrl := "https://substack.com/sign-in?error=retry",
    finalAlerts := [] }

/-- A post page on which none of the four readiness markers ever appears
within the bounded wait. -/
def stalePage : PremiumPage :=
  { navRaises := false, markerAt := fun _ => false,
    pageSource := "<html><body>skeleton</body></html>" }

/-- A fetch whose navigation itself fails. -/
def crashedPage : PremiumPage :=
  { navRaises := true, markerAt := fun _ => false, pageSource := "" }

/-- A page whose readiness marker appears at the fourth poll. -/
def readyPage : PremiumPage :=
  { navRaises := false, markerAt := fun j => j == 3, pageSource := "<html>post</html>" }

/-- A document with title present, subtitle and date elements absent, and
a non-numeric like-count text. -/
def soupDefaults : Soup :=
  { titleText := some "Titled", subtitleText := none, dateText := none,
    likeCountText := some "12 likes", availableContent := "<p>x</p>" }

def recNovel : PostRecord :=
  { title := "Novel", subtitle := "N", like_count := "3",
    date := "Mar 01, 2025", file_link := "markdown/novel.md", html_link := "html/novel.html" }

def exExisting5 : List PostRecord := [exRecOne]

/-- A new batch containing one record structurally identical to an
existing one and one novel record. -/
def exNew5 : List PostRecord := [exRecOne, recNovel]

def exFS5 : FS :=
  { files := [("substacks/example/markdown/one.md", "kept")], index := some exExisting5 }

/-- A filesystem already containing the Markdown artifact of the first
example post. -/
def fsWithOneMd : FS :=
  { files := [("substacks/example/markdown/one.md", "existing content")], index := none }

/-! # Theorems -/

/-! ## Substring and split helper lemmas -/

theorem containsSeq_true_iff (needle : List Char) :
    ∀ hay, containsSeq needle hay = true ↔ needle <:+: hay := by
  intro hay
  induction hay with
  | nil =>
    simp [containsSeq, List.isEmpty_iff, List.infix_nil]
  | cons c rest ih =>
    simp [containsSeq, List.infix_cons_iff, ih, List.isPrefixOf_iff_prefix]

theorem splitOnChar_ne_nil (sep : Char) : ∀ l, splitOnChar sep l ≠ [] := by
  intro l
  induction l with
  | nil => simp [splitOnChar]
  | cons c rest ih =>
    by_cases h : c = sep
    · simp [splitOnChar, h]
    · simp only [splitOnChar, if_neg h]
      cases hs : splitOnChar sep rest with
      | nil => simp
      | cons a t => simp

theorem splitOnChar_head_pre (sep : Char) :
    ∀ l h t, splitOnChar sep l = h :: t → h <+: l := by
  intro l
  induction l with
  | nil =>
    intro h t he
    simp only [splitOnChar, List.cons.injEq] at he
    exact he.1 ▸ List.nil_prefix
  | cons c rest ih =>
    intro h t he
    by_cases hc : c = sep
    · simp only [splitOnChar, if_pos hc, List.cons.injEq] at he
      exact he.1 ▸ List.nil_prefix
    · simp only [splitOnChar, if_neg hc] at he
      cases hs : splitOnChar sep rest with
      | nil => exact absurd hs (splitOnChar_ne_nil sep rest)
      | cons a t2 =>
        rw [hs] at he
        simp only [List.cons.injEq] at he
        obtain ⟨s, hs2⟩ := ih a t2 hs
        exact ⟨s, by rw [← he.1, ← hs2]; rfl⟩

theorem infix_of_mem_splitOnChar (sep : Char) :
    ∀ l seg, seg ∈ splitOnChar sep l → seg <:+: l := by
  intro l
  induction l with
  | nil =>
    intro seg h
    simp only [splitOnChar, List.mem_singleton] at h
    exact h ▸ List.infix_rfl
  | cons c rest ih =>
    intro seg h
    by_cases hc : c = sep
    · simp only [splitOnChar, if_pos hc, List.mem_cons] at h
      rcases h with rfl | h
      · exact ⟨[], c :: rest, rfl⟩
      · exact List.infix_cons (ih seg h)
    · simp only [splitOnChar, if_neg hc] at h
      cases hs : splitOnChar sep rest with
      | nil => exact absurd hs (splitOnChar_ne_nil sep rest)
      | cons a t =>
        rw [hs] at h
        rcases List.mem_cons.mp h with rfl | h2
        · obtain ⟨s, hs2⟩ := splitOnChar_head_pre sep rest a t hs
          exact ⟨[], s, by simp [← hs2]⟩
        · exact List.infix_cons (ih seg (by rw [hs]; exact List.mem_cons_of_mem a h2))

/--
C8: URL filtering.  Membership in `filter_urls` over the default
keyword set `["about", "archive", "podcast"]` holds exactly for input
URLs containing none of the keywords as a substring (no keyword match
is required for inclusion), and any URL containing `"archive"` as a
path segment is excluded.
-/
theorem claim_c8_url_filtering :
    (∀ (urls : List String) (url : String),
        url ∈ filter_urls urls default_keywords ↔
          url ∈ urls ∧ ∀ k ∈ default_keywords, substrContains url k = false)
    ∧ (∀ (urls : List String) (url : String),
        "archive".toList ∈ splitOnChar '/' url.toList →
          url ∉ filter_urls urls default_keywords) := by
  constructor
  · intro urls url
    simp [filter_urls, List.mem_filter, List.all_eq_true]
  · intro urls url hseg hmem
    have hinf : "archive".toList <:+: url.toList := infix_of_mem_splitOnChar '/' url.toList _ hseg
    have hcontains : substrContains url "archive" = true :=
      (containsSeq_true_iff _ _).mpr hinf
    obtain ⟨-, hp⟩ := List.mem_filter.mp hmem
    have harch : "archive" ∈ default_keywords := by decide
    have := List.all_eq_true.mp hp "archive" harch
    rw [hcontains] at this
    exact absurd this (by decide)

/-- Witness for C8 at concrete inputs: a URL with `archive` as a path
segment is dropped; a keyword-free URL is kept. -/
theorem claim_c8_witness :
    "https://ex.com/archive/1" ∉
        filter_urls ["https://ex.com/archive/1", "https://ex.com/p/x"] default_keywords
    ∧ "https://ex.com/p/x" ∈
        filter_urls ["https://ex.com/archive/1", "https://ex.com/p/x"] default_keywords := by
  constructor
  · exact claim_c8_url_filtering.2 _ "https://ex.com/archive/1" (by decide)
  · exact (claim_c8_url_filtering.1 _ "https://ex.com/p/x").mpr ⟨by decide, by decide⟩

/--
C9: extractor optional-field defaults.  For any fetched document whose
title element is present (so extraction succeeds), the extracted tuple
`(title, subtitle, like_count, date, md)` defaults the subtitle to `""`
when the subtitle element is absent, the date to `"Date not found"`
when the date element is absent, and the like count to `"0"` when the
like-count element is absent or its stripped text is non-numeric.
-/
theorem claim_c9_extractor_defaults :
    ∀ (html2text : String → String) (soup : Soup) (t : String),
      soup.titleText = some t →
      ((soup.subtitleText = none →
          (extract_post_data html2text soup).map (fun r => r.2.1) = some "")
       ∧ (soup.dateText = none →
          (extract_post_data html2text soup).map (fun r => r.2.2.2.1) = some "Date not found")
       ∧ (soup.likeCountText = none →
          (extract_post_data html2text soup).map (fun r => r.2.2.1) = some "0")
       ∧ (∀ l, soup.likeCountText = some l → isPyDigit (pyStrip l) = false →
          (extract_post_data html2text soup).map (fun r => r.2.2.1) = some "0")) := by
  intro html2text soup t ht
  refine ⟨?_, ?_, ?_, ?_⟩
  · intro hs
    simp [extract_post_data, ht, hs]
  · intro hd
    simp [extract_post_data, ht, hd]
  · intro hl
    simp [extract_post_data, ht, hl]
  · intro l hl hnd
    simp [extract_post_data, ht, hl, hnd]

/-- Witness for C9: on a concrete document with subtitle and date absent
and like-count text `"12 likes"`, the defaults `""`, `"Date not found"`
and `"0"` are produced. -/
theorem claim_c9_witness :
    (extract_post_data id soupDefaults).map (fun r => r.2.1) = some ""
    ∧ (extract_post_data id soupDefaults).map (fun r => r.2.2.2.1) = some "Date not found"
    ∧ (extract_post_data id soupDefaults).map (fun r => r.2.2.1) = some "0" := by
  have h := claim_c9_extractor_defaults id soupDefaults "Titled" rfl
  exact ⟨h.1 rfl, h.2.1 rfl, h.2.2.2 "12 likes" rfl (by decide)⟩

/--
Counterexample to C7 as stated: on a page where none of the four
readiness markers ever appears within the bounded wait (the `find?`
over all polls is `none`), the authenticated fetch nevertheless returns
the parsed current page source — content — instead of a Timeout
outcome; the `TimeoutException` is caught by the inner handler, which
only logs.
-/
theorem claim_c7_counterexample :
    waitUntilMarker stalePage = none
    ∧ PremiumSubstackScraper.get_url_soup stalePage =
        Except.ok "<html><body>skeleton</body></html>" := by
  constructor
  · decide
  · rfl

/--
C7 as amended: the authenticated fetch polls for a readiness marker
within a bounded window (at most `premiumPollCount` polls), but when no
marker appears in time the timeout is caught and logged and the fetch
still returns the current page source; only a navigation failure
produces a raised (`HardError`) outcome.
-/
theorem claim_c7_premium_fetch :
    (∀ pg : PremiumPage, pg.navRaises = false →
        PremiumSubstackScraper.get_url_soup pg = Except.ok pg.pageSource)
    ∧ (∀ pg : PremiumPage, pg.navRaises = true →
        PremiumSubstackScraper.get_url_soup pg = Except.error "Error fetching page")
    ∧ (∀ (pg : PremiumPage) (j : Nat), waitUntilMarker pg = some j →
        j < premiumPollCount ∧ pg.markerAt j = true) := by
  refine ⟨?_, ?_, ?_⟩
  · intro pg h
    unfold PremiumSubstackScraper.get_url_soup
    rw [h]
    simp only [Bool.false_eq_true, if_false]
    cases waitUntilMarker pg <;> rfl
  · intro pg h
    unfold PremiumSubstackScraper.get_url_soup
    rw [h]
    rfl
  · intro pg j h
    have hmem : j ∈ List.range premiumPollCount := List.mem_of_find?_eq_some h
    exact ⟨List.mem_range.mp hmem, List.find?_some h⟩

/-- Witness for C7 (amended): the stale page returns its page source,
navigation failure raises, and a marker found at poll 3 is within the
10-poll budget. -/
theorem claim_c7_witness :
    PremiumSubstackScraper.get_url_soup stalePage =
        Except.ok "<html><body>skeleton</body></html>"
    ∧ PremiumSubstackScraper.get_url_soup crashedPage = Except.error "Error fetching page"
    ∧ 3 < premiumPollCount ∧ readyPage.markerAt 3 = true := by
  refine ⟨?_, ?_, ?_⟩
  · exact claim_c7_premium_fetch.1 stalePage rfl
  · exact claim_c7_premium_fetch.2.1 crashedPage rfl
  · exact claim_c7_premium_fetch.2.2 readyPage 3 (by decide)

/--
C5: index merge semantics.  When an index already exists,
`save_essays_data_to_json` leaves the artifact files untouched and
writes an index that starts with all pre-existing records in order
(append-merge, never a wholesale rewrite), contains every new record
that has no structurally identical existing record, contains nothing
that is not an existing or a new record, and appends no record that is
whole-record-equal to an existing one.
-/
theorem claim_c5_index_merge :
    ∀ (fs : FS) (existing_data new_records : List PostRecord),
      fs.index = some existing_data →
      ((save_essays_data_to_json fs new_records).files = fs.files
       ∧ ∀ merged, (save_essays_data_to_json fs new_records).index = some merged →
           (merged.take existing_data.length = existing_data
            ∧ (∀ r ∈ new_records, r ∉ existing_data → r ∈ merged)
            ∧ (∀ r ∈ merged, r ∈ existing_data ∨ r ∈ new_records)
            ∧ (∀ r ∈ merged.drop existing_data.length, r ∉ existing_data))) := by
  intro fs existing_data new_records hidx
  unfold save_essays_data_to_json
  rw [hidx]
  refine ⟨rfl, ?_⟩
  intro merged hm
  simp only [Option.some.injEq] at hm
  subst hm
  refine ⟨List.take_left _ _, ?_, ?_, ?_⟩
  · intro r hr hnr
    exact List.mem_append_right _ (List.mem_filter.mpr ⟨hr, by simpa using hnr⟩)
  · intro r hr
    rcases List.mem_append.mp hr with h | h
    · exact Or.inl h
    · exact Or.inr (List.mem_filter.mp h).1
  · intro r hr
    rw [List.drop_left] at hr
    have := (List.mem_filter.mp hr).2
    simpa using this

/-- Witness for C5: a batch holding a duplicate of the one existing
record plus a novel record merges to existing-then-novel, preserving the
existing prefix. -/
theorem claim_c5_witness :
    (save_essays_data_to_json exFS5 exNew5).files = exFS5.files
    ∧ (save_essays_data_to_json exFS5 exNew5).index = some (exExisting5 ++ [recNovel])
    ∧ (exExisting5 ++ [recNovel]).take exExisting5.length = exExisting5 := by
  have h := claim_c5_index_merge exFS5 exExisting5 exNew5 rfl
  have hm := h.2 (exExisting5 ++ [recNovel]) (by decide)
  exact ⟨h.1, by decide, hm.1⟩

/-- When every poll still sees the sign-in surface, the challenge wait
never takes its early `return`. -/
theorem loginWait_false_of_onSignIn (w : LoginWorld)
    (h : ∀ i, urlOnSignIn (w.urlAt i) = true) :
    ∀ l p, loginChallengeWait w l p = false := by
  intro l
  induction l with
  | nil => intro p; rfl
  | cons x rest ih =>
    intro p
    simp only [loginChallengeWait, h p, Bool.not_true, Bool.false_eq_true, if_false]
    cases he : w.errAt p with
    | none => exact ih (p + 1)
    | some e =>
      by_cases hc : errStillCaptcha e = true
      · simp [hc, ih (p + 1)]
      · simp [Bool.eq_false_iff.mpr hc]

/--
Counterexample to C6 as stated: the polled success condition is not
"current location no longer EQUALS the sign-in surface" but substring
containment of the sign-in address.  In this world the current location
never equals the sign-in surface (it carries a query string) — so under
the claimed success condition the very first poll would succeed — yet
`login` raises the authentication failure.
-/
theorem claim_c6_counterexample :
    wQuerySignIn.urlAt 0 ≠ substackSignInUrl
    ∧ wQuerySignIn.finalUrl ≠ substackSignInUrl
    ∧ login wQuerySignIn = LoginResult.failure := by
  refine ⟨by decide, by decide, ?_⟩
  rfl

/--
C6 as amended: the challenge wait polls at a fixed 10-second interval
for 12 rounds — a fixed total budget of 120 seconds — with success
condition "the sign-in address no longer occurs in the current
location" (substring containment, not equality); when the sign-in
surface is never left within that budget, `login` raises the
authentication failure (enumerating candidate causes) instead of
blocking indefinitely, and when the surface has been left at the first
poll it returns successfully.
-/
theorem claim_c6_auth_budget :
    (loginCountdown.length = 12 ∧ 10 * loginCountdown.length = 120)
    ∧ (∀ w : LoginWorld, (∀ i, urlOnSignIn (w.urlAt i) = true) →
        urlOnSignIn w.finalUrl = true → login w = LoginResult.failure)
    ∧ (∀ w : LoginWorld, w.credentialPhaseRaises = false →
        urlOnSignIn (w.urlAt 0) = false → login w = LoginResult.success) := by
  refine ⟨⟨by decide, by decide⟩, ?_, ?_⟩
  · intro w hall hfinal
    have hwait := loginWait_false_of_onSignIn w hall loginCountdown 0
    unfold login is_login_failed
    cases hcred : w.credentialPhaseRaises <;>
      cases hsome : w.finalErr.isSome <;>
        simp [hcred, hsome, hwait, hfinal]
  · intro w hcred h0
    have hcd : loginCountdown = 120 :: [110, 100, 90, 80, 70, 60, 50, 40, 30, 20, 10] := rfl
    unfold login
    rw [hcred, hcd]
    simp [loginChallengeWait, h0]

/-- Witness for C6 (amended): a world stuck on the sign-in page for
every poll and at the final check makes `login` raise. -/
theorem claim_c6_witness :
    login wStuckSignIn = LoginResult.failure ∧ loginCountdown.length = 12 := by
  constructor
  · exact claim_c6_auth_budget.2.1 wStuckSignIn (fun i => rfl) rfl
  · exact claim_c6_auth_budget.1.1

/--
Counterexample to C3 as stated: a sitemap response with a success HTTP
status whose body fails to parse makes `ET.fromstring` raise, and the
`ParseError` propagates out of discovery — the feed endpoint (which
here holds a post URL) is never attempted, so a sitemap parse failure
does NOT fall back to the feed.
-/
theorem claim_c3_counterexample :
    get_all_post_urls discWorldParseFail "https://site.substack.com/" default_keywords =
        Except.error "ParseError: no element found"
    ∧ fetch_urls_from_feed discWorldParseFail "https://site.substack.com/" =
        Except.ok ["https://site.substack.com/p/recent"] := ⟨rfl, rfl⟩

/--
C3 as amended: discovery attempts the sitemap first; a non-success
HTTP status at the sitemap is a definitive empty result for that source
(no retry) and leads to the feed fallback; a non-success status at the
feed is likewise a definitive empty result; a nonempty sitemap result
short-circuits the feed; but a sitemap PARSE failure raises out of
discovery without attempting the feed.
-/
theorem claim_c3_discovery_fallback :
    (∀ (w : DiscoveryWorld) (base : String) (keywords : List String),
        (w.http_get (normalizeBaseUrl base ++ "sitemap.xml")).ok = false →
        get_all_post_urls w base keywords =
          match fetch_urls_from_feed w base with
          | Except.ok us => Except.ok (filter_urls us keywords)
          | Except.error e => Except.error e)
    ∧ (∀ (w : DiscoveryWorld) (base : String) (keywords : List String) (e : String),
        (w.http_get (normalizeBaseUrl base ++ "sitemap.xml")).ok = true →
        w.parseXml (w.http_get (normalizeBaseUrl base ++ "sitemap.xml")).content =
          Except.error e →
        get_all_post_urls w base keywords = Except.error e)
    ∧ (∀ (w : DiscoveryWorld) (base : String),
        (w.http_get (normalizeBaseUrl base ++ "sitemap.xml")).ok = false →
        fetch_urls_from_sitemap w base = Except.ok [])
    ∧ (∀ (w : DiscoveryWorld) (base : String),
        (w.http_get (normalizeBaseUrl base ++ "feed.xml")).ok = false →
        fetch_urls_from_feed w base = Except.ok [])
    ∧ (∀ (w : DiscoveryWorld) (base : String) (keywords : List String)
          (urls : List String),
        fetch_urls_from_sitemap w base = Except.ok urls → urls ≠ [] →
        get_all_post_urls w base keywords = Except.ok (filter_urls urls keywords)) := by
  refine ⟨?_, ?_, ?_, ?_, ?_⟩
  · intro w base keywords hok
    unfold get_all_post_urls fetch_urls_from_sitemap
    cases hf : fetch_urls_from_feed w base <;> simp [hok, hf]
  · intro w base keywords e hok hparse
    unfold get_all_post_urls fetch_urls_from_sitemap
    simp [hok, hparse]
  · intro w base hok
    unfold fetch_urls_from_sitemap
    simp [hok]
  · intro w base hok
    unfold fetch_urls_from_feed
    simp [hok]
  · intro w base keywords urls hs hne
    unfold get_all_post_urls
    have hemp : urls.isEmpty = false := by
      cases urls with
      | nil => exact absurd rfl hne
      | cons a t => rfl
    simp [hs, hemp]

/-- Witness for C3 (amended): a 404 sitemap world falls back to the feed
and yields the feed's post URL. -/
theorem claim_c3_witness :
    get_all_post_urls discWorld404 "https://site2.substack.com" default_keywords =
      Except.ok ["https://site2.substack.com/p/a"] := by
  have h := claim_c3_discovery_fallback.1 discWorld404 "https://site2.substack.com"
    default_keywords rfl
  rw [h]
  rfl

/-! ## Unfolding lemmas for the per-post loop -/

theorem scrapeLoop_cons_err (env : ScrapeEnv) (base : String) (num : Nat) (url : String)
    (rest : List String) (fs : FS) (es : List PostRecord) (c : Nat) (e : String)
    (h : tryProcessUrl env base url fs = Except.error e) :
    scrapeLoop env base num (url :: rest) fs es c =
      if num ≠ 0 ∧ c + 1 = num then (fs, es)
      else scrapeLoop env base num rest fs es (c + 1) := by
  simp only [scrapeLoop, h]

theorem scrapeLoop_cons_skip (env : ScrapeEnv) (base : String) (num : Nat) (url : String)
    (rest : List String) (fs fs1 : FS) (es : List PostRecord) (c : Nat)
    (h : tryProcessUrl env base url fs = Except.ok (StepOutcome.skippedTotal fs1)) :
    scrapeLoop env base num (url :: rest) fs es c =
      scrapeLoop env base num rest fs1 es c := by
  simp only [scrapeLoop, h]

theorem scrapeLoop_cons_counted (env : ScrapeEnv) (base : String) (num : Nat) (url : String)
    (rest : List String) (fs fs1 : FS) (es : List PostRecord) (c : Nat) (r : Option PostRecord)
    (h : tryProcessUrl env base url fs = Except.ok (StepOutcome.counted fs1 r)) :
    scrapeLoop env base num (url :: rest) fs es c =
      if num ≠ 0 ∧ c + 1 = num then (fs1, es ++ r.toList)
      else scrapeLoop env base num rest fs1 (es ++ r.toList) (c + 1) := by
  cases r with
  | none => simp only [scrapeLoop, h, Option.toList, List.append_nil]
  | some x => simp only [scrapeLoop, h, Option.toList]

theorem tryProcessUrl_of_exists (env : ScrapeEnv) (base url : String) (fs : FS)
    (h : pathExists fs (mdPathOf base url) = true) :
    tryProcessUrl env base url fs = Except.ok (StepOutcome.counted fs none) := by
  simp [tryProcessUrl, h]

theorem scrapeLoop_cons_exists (env : ScrapeEnv) (base : String) (num : Nat) (url : String)
    (rest : List String) (fs : FS) (es : List PostRecord) (c : Nat)
    (h : pathExists fs (mdPathOf base url) = true) :
    scrapeLoop env base num (url :: rest) fs es c =
      if num ≠ 0 ∧ c + 1 = num then (fs, es)
      else scrapeLoop env base num rest fs es (c + 1) := by
  simp only [scrapeLoop, tryProcessUrl_of_exists env base url fs h]

/--
C1: partial-failure isolation.  An exception raised inside one URL's
`try` body (fetching, extraction or persistence — any `Except.error`
from `tryProcessUrl`) is caught at the per-iteration boundary: the loop
state is unchanged except for the loop counter and processing proceeds
with the remaining URLs; `scrapeLoop`'s result type carries no
exception, so nothing propagates out of the batch call.  In the
concrete three-post world `exEnv` — where extraction of the 2nd post
raises because its title element is missing — the final index holds
exactly the records of the 1st and 3rd posts.
-/
theorem claim_c1_partial_failure_isolation :
    (∀ (env : ScrapeEnv) (base : String) (num : Nat) (url : String) (rest : List String)
        (fs : FS) (essays_data : List PostRecord) (count : Nat) (e : String),
        tryProcessUrl env base url fs = Except.error e →
        ¬(num ≠ 0 ∧ count + 1 = num) →
        scrapeLoop env base num (url :: rest) fs essays_data count =
          scrapeLoop env base num rest fs essays_data (count + 1))
    ∧ tryProcessUrl exEnv exBase "https://example.substack.com/p/two" emptyFS =
        Except.error "AttributeError: NoneType object has no attribute text"
    ∧ (scrape_posts exEnv exBase exUrls 0 emptyFS).index = some [exRecOne, exRecThree] := by
  refine ⟨?_, rfl, by decide⟩
  intro env base num url rest fs essays_data count e h hstop
  rw [scrapeLoop_cons_err env base num url rest fs essays_data count e h, if_neg hstop]

/-- Witness for C1: the failing 2nd post of the concrete world is
skipped and the loop continues with the 3rd. -/
theorem claim_c1_witness :
    scrapeLoop exEnv exBase 0
        ["https://example.substack.com/p/two", "https://example.substack.com/p/three"]
        emptyFS [] 0 =
      scrapeLoop exEnv exBase 0 ["https://example.substack.com/p/three"] emptyFS [] 1 :=
  claim_c1_partial_failure_isolation.1 exEnv exBase 0 _ _ emptyFS [] 0 _ rfl (by simp)

/--
Counterexample to C4 as stated: in `worldFour` the fetch of the 2nd
post fails at the navigation/session level (its `ValueError` hard error
is re-raised by `get_url_soup`), yet the batch completes and the final
index holds the records of the 1st and 3rd posts — the failure was
treated as a per-post skip, not escalated out of per-post processing.
-/
theorem claim_c4_counterexample :
    SubstackScraper.get_url_soup (worldFour "https://casefour.substack.com/p/beta") =
        Except.error "Error fetching page"
    ∧ (scrape_posts (anonScrapeEnv worldFour fourH2t fourMd) baseFour urlsFour 0 emptyFS).index =
        some [recAlpha, recGamma] :=
  ⟨rfl, by decide⟩

/--
C4 as amended: a fetch failing at the navigation/session level raises a
hard error (`ValueError`) out of `get_url_soup`, but `scrape_posts`
catches it at the same per-iteration boundary as any other per-post
failure and proceeds to the next URL; it does not escalate out of the
batch.
-/
theorem claim_c4_fetch_hard_caught :
    (∀ page : AnonPage, page.requestRaises = true →
        SubstackScraper.get_url_soup page = Except.error "Error fetching page")
    ∧ (∀ (world : String → AnonPage) (h2t mdr : String → String) (base : String)
          (num : Nat) (url : String) (rest : List String) (fs : FS)
          (essays_data : List PostRecord) (count : Nat),
        (world url).requestRaises = true →
        pathExists fs (mdPathOf base url) = false →
        ¬(num ≠ 0 ∧ count + 1 = num) →
        scrapeLoop (anonScrapeEnv world h2t mdr) base num (url :: rest) fs essays_data count =
          scrapeLoop (anonScrapeEnv world h2t mdr) base num rest fs essays_data (count + 1)) := by
  constructor
  · intro page h
    simp [SubstackScraper.get_url_soup, h]
  · intro world h2t mdr base num url rest fs essays_data count hr hmd hstop
    have hfetch : (anonScrapeEnv world h2t mdr).get_url_soup url =
        Except.error "Error fetching page" := by
      simp [anonScrapeEnv, SubstackScraper.get_url_soup, hr]
    have hstep : tryProcessUrl (anonScrapeEnv world h2t mdr) base url fs =
        Except.error "Error fetching page" := by
      simp [tryProcessUrl, hmd, hfetch]
    rw [scrapeLoop_cons_err _ _ _ _ _ _ _ _ _ hstep, if_neg hstop]

/-- Witness for C4 (amended): the hard-failing 2nd post of `worldFour`
is caught and the loop moves to the 3rd. -/
theorem claim_c4_witness :
    SubstackScraper.get_url_soup (worldFour "https://casefour.substack.com/p/beta") =
        Except.error "Error fetching page"
    ∧ scrapeLoop (anonScrapeEnv worldFour fourH2t fourMd) baseFour 0
        ["https://casefour.substack.com/p/beta", "https://casefour.substack.com/p/gamma"]
        emptyFS [] 0 =
      scrapeLoop (anonScrapeEnv worldFour fourH2t fourMd) baseFour 0
        ["https://casefour.substack.com/p/gamma"] emptyFS [] 1 :=
  ⟨claim_c4_fetch_hard_caught.1 (worldFour "https://casefour.substack.com/p/beta") rfl,
   claim_c4_fetch_hard_caught.2 worldFour fourH2t fourMd baseFour 0 _ _ emptyFS [] 0 rfl
     (by decide) (by simp)⟩

/-! ## Filesystem-path lemmas for the idempotence proof -/

theorem pathExists_iff (fs : FS) (p : String) : pathExists fs p = true ↔ p ∈ fs.paths := by
  unfold pathExists List.contains
  exact List.elem_iff

theorem pathExists_of_paths_eq {fs1 fs2 : FS} (h : fs1.paths = fs2.paths) (p : String) :
    pathExists fs1 p = pathExists fs2 p := by
  unfold pathExists
  rw [h]

theorem paths_save_to_file_exists (fs : FS) (p c : String)
    (h : pathExists fs p = true) : (save_to_file fs p c) = fs := by
  unfold save_to_file
  rw [if_pos h]

theorem paths_save_to_file_new (fs : FS) (p c : String)
    (h : pathExists fs p = false) : (save_to_file fs p c).paths = fs.paths ++ [p] := by
  unfold save_to_file
  rw [h]
  simp [FS.paths]

theorem paths_writeFile (fs : FS) (p c : String) :
    (writeFile fs p c).paths = fs.paths ∨ (writeFile fs p c).paths = fs.paths ++ [p] := by
  unfold writeFile
  by_cases h : pathExists fs p = true
  · rw [if_pos h]
    left
    unfold FS.paths
    simp only [List.map_map]
    apply List.map_congr_left
    intro e he
    by_cases hp : e.1 = p
    · simp [Function.comp, hp]
    · simp [Function.comp, hp]
  · rw [if_neg h]
    right
    simp [FS.paths]

theorem pathExists_save_to_file_mono (fs : FS) (p c q : String)
    (h : pathExists fs q = true) : pathExists (save_to_file fs p c) q = true := by
  by_cases hp : pathExists fs p = true
  · rw [paths_save_to_file_exists fs p c hp]
    exact h
  · rw [pathExists_iff] at h ⊢
    rw [paths_save_to_file_new fs p c (Bool.eq_false_iff.mpr hp)]
    exact List.mem_append_left _ h

theorem pathExists_writeFile_mono (fs : FS) (p c q : String)
    (h : pathExists fs q = true) : pathExists (writeFile fs p c) q = true := by
  rw [pathExists_iff] at h ⊢
  rcases paths_writeFile fs p c with he | he <;> rw [he]
  · exact h
  · exact List.mem_append_left _ h

theorem pathExists_save_to_html_file_mono (base : String) (fs : FS) (p c q : String)
    (h : pathExists fs q = true) : pathExists (save_to_html_file base fs p c) q = true := by
  unfold save_to_html_file
  exact pathExists_writeFile_mono _ _ _ _ h

theorem pathExists_save_to_file_self (fs : FS) (p c : String) :
    pathExists (save_to_file fs p c) p = true := by
  by_cases hp : pathExists fs p = true
  · rw [paths_save_to_file_exists fs p c hp]
    exact hp
  · rw [pathExists_iff, paths_save_to_file_new fs p c (Bool.eq_false_iff.mpr hp)]
    exact List.mem_append_right _ (List.mem_singleton.mpr rfl)

theorem index_save_to_file (fs : FS) (p c : String) :
    (save_to_file fs p c).index = fs.index := by
  unfold save_to_file
  split <;> rfl

theorem index_writeFile (fs : FS) (p c : String) :
    (writeFile fs p c).index = fs.index := by
  unfold writeFile
  split <;> rfl

theorem index_save_to_html_file (base : String) (fs : FS) (p c : String) :
    (save_to_html_file base fs p c).index = fs.index := by
  unfold save_to_html_file
  exact index_writeFile _ _ _

/-! ## Case-analysis lemmas for one loop iteration -/

theorem tryProcessUrl_err_fetch (env : ScrapeEnv) (base url : String) (fs : FS) (e : String)
    (h1 : pathExists fs (mdPathOf base url) = false)
    (h2 : env.get_url_soup url = Except.error e) :
    tryProcessUrl env base url fs = Except.error e := by
  simp [tryProcessUrl, h1, h2]

theorem tryProcessUrl_skip_paywall (env : ScrapeEnv) (base url : String) (fs : FS)
    (h1 : pathExists fs (mdPathOf base url) = false)
    (h2 : env.get_url_soup url = Except.ok none) :
    tryProcessUrl env base url fs = Except.ok (StepOutcome.skippedTotal fs) := by
  simp [tryProcessUrl, h1, h2]

theorem tryProcessUrl_err_extract (env : ScrapeEnv) (base url : String) (fs : FS) (soup : Soup)
    (h1 : pathExists fs (mdPathOf base url) = false)
    (h2 : env.get_url_soup url = Except.ok (some soup))
    (h3 : extract_post_data env.html2text soup = none) :
    tryProcessUrl env base url fs =
      Except.error "AttributeError: NoneType object has no attribute text" := by
  simp [tryProcessUrl, h1, h2, h3]

theorem tryProcessUrl_success (env : ScrapeEnv) (base url : String) (fs : FS) (soup : Soup)
    (title subtitle like_count date md : String)
    (h1 : pathExists fs (mdPathOf base url) = false)
    (h2 : env.get_url_soup url = Except.ok (some soup))
    (h3 : extract_post_data env.html2text soup =
      some (title, subtitle, like_count, date, md)) :
    tryProcessUrl env base url fs =
      Except.ok (StepOutcome.counted
        (save_to_html_file base (save_to_file fs (mdPathOf base url) md)
          (htmlPathOf base url) (env.markdown md))
        (some (mkPostRecord base url title subtitle like_count date))) := by
  simp [tryProcessUrl, h1, h2, h3]

/-- The per-post loop only ever adds files: any path present on entry is
present in the final filesystem. -/
theorem scrapeLoop_paths_mono (env : ScrapeEnv) (base : String) (num : Nat) :
    ∀ (urls : List String) (fs : FS) (es : List PostRecord) (c : Nat) (q : String),
      pathExists fs q = true →
      pathExists (scrapeLoop env base num urls fs es c).1 q = true := by
  intro urls
  induction urls with
  | nil =>
    intro fs es c q h
    exact h
  | cons url rest ih =>
    intro fs es c q h
    cases hmd : pathExists fs (mdPathOf base url) with
    | true =>
      rw [scrapeLoop_cons_counted env base num url rest fs fs es c none
        (tryProcessUrl_of_exists env base url fs hmd)]
      by_cases hstop : num ≠ 0 ∧ c + 1 = num
      · rw [if_pos hstop]
        exact h
      · rw [if_neg hstop]
        exact ih fs _ _ q h
    | false =>
      cases hfetch : env.get_url_soup url with
      | error e =>
        rw [scrapeLoop_cons_err env base num url rest fs es c e
          (tryProcessUrl_err_fetch env base url fs e hmd hfetch)]
        by_cases hstop : num ≠ 0 ∧ c + 1 = num
        · rw [if_pos hstop]
          exact h
        · rw [if_neg hstop]
          exact ih fs es _ q h
      | ok osoup =>
        cases osoup with
        | none =>
          rw [scrapeLoop_cons_skip env base num url rest fs fs es c
            (tryProcessUrl_skip_paywall env base url fs hmd hfetch)]
          exact ih fs es c q h
        | some soup =>
          cases hext : extract_post_data env.html2text soup with
          | none =>
            rw [scrapeLoop_cons_err env base num url rest fs es c _
              (tryProcessUrl_err_extract env base url fs soup hmd hfetch hext)]
            by_cases hstop : num ≠ 0 ∧ c + 1 = num
            · rw [if_pos hstop]
              exact h
            · rw [if_neg hstop]
              exact ih fs es _ q h
          | some quint =>
            obtain ⟨t, s, l, d, m⟩ := quint
            have hw := tryProcessUrl_success env base url fs soup t s l d m hmd hfetch hext
            rw [scrapeLoop_cons_counted _ _ _ _ _ _ _ _ _ _ hw]
            have hq2 : pathExists (save_to_html_file base
                (save_to_file fs (mdPathOf base url) m) (htmlPathOf base url)
                (env.markdown m)) q = true :=
              pathExists_save_to_html_file_mono _ _ _ _ _
                (pathExists_save_to_file_mono _ _ _ _ h)
            by_cases hstop : num ≠ 0 ∧ c + 1 = num
            · rw [if_pos hstop]
              exact hq2
            · rw [if_neg hstop]
              exact ih _ _ _ q hq2

/-- The per-post loop never touches the JSON index file. -/
theorem scrapeLoop_index (env : ScrapeEnv) (base : String) (num : Nat) :
    ∀ (urls : List String) (fs : FS) (es : List PostRecord) (c : Nat),
      (scrapeLoop env base num urls fs es c).1.index = fs.index := by
  intro urls
  induction urls with
  | nil =>
    intro fs es c
    rfl
  | cons url rest ih =>
    intro fs es c
    cases hmd : pathExists fs (mdPathOf base url) with
    | true =>
      rw [scrapeLoop_cons_counted env base num url rest fs fs es c none
        (tryProcessUrl_of_exists env base url fs hmd)]
      by_cases hstop : num ≠ 0 ∧ c + 1 = num
      · rw [if_pos hstop]
      · rw [if_neg hstop]
        exact ih fs _ _
    | false =>
      cases hfetch : env.get_url_soup url with
      | error e =>
        rw [scrapeLoop_cons_err env base num url rest fs es c e
          (tryProcessUrl_err_fetch env base url fs e hmd hfetch)]
        by_cases hstop : num ≠ 0 ∧ c + 1 = num
        · rw [if_pos hstop]
        · rw [if_neg hstop]
          exact ih fs es _
      | ok osoup =>
        cases osoup with
        | none =>
          rw [scrapeLoop_cons_skip env base num url rest fs fs es c
            (tryProcessUrl_skip_paywall env base url fs hmd hfetch)]
          exact ih fs es c
        | some soup =>
          cases hext : extract_post_data env.html2text soup with
          | none =>
            rw [scrapeLoop_cons_err env base num url rest fs es c _
              (tryProcessUrl_err_extract env base url fs soup hmd hfetch hext)]
            by_cases hstop : num ≠ 0 ∧ c + 1 = num
            · rw [if_pos hstop]
            · rw [if_neg hstop]
              exact ih fs es _
          | some quint =>
            obtain ⟨t, s, l, d, m⟩ := quint
            have hw := tryProcessUrl_success env base url fs soup t s l d m hmd hfetch hext
            rw [scrapeLoop_cons_counted _ _ _ _ _ _ _ _ _ _ hw]
            have hidx : (save_to_html_file base (save_to_file fs (mdPathOf base url) m)
                (htmlPathOf base url) (env.markdown m)).index = fs.index := by
              rw [index_save_to_html_file, index_save_to_file]
            by_cases hstop : num ≠ 0 ∧ c + 1 = num
            · rw [if_pos hstop]
              exact hidx
            · rw [if_neg hstop]
              rw [ih _ _ _]
              exact hidx

theorem stop_transfer {num c1 c2 : Nat} (hc : c1 ≤ c2) (hnum : num ≠ 0 → c2 < num)
    (h1 : num ≠ 0 ∧ c1 + 1 = num) : num ≠ 0 ∧ c2 + 1 = num := by
  obtain ⟨hn, he⟩ := h1
  have hlt := hnum hn
  exact ⟨hn, by omega⟩

theorem budget_step {num c2 : Nat} (hnum : num ≠ 0 → c2 < num)
    (h2 : ¬(num ≠ 0 ∧ c2 + 1 = num)) : num ≠ 0 → c2 + 1 < num := by
  intro hn
  have h3 := hnum hn
  have h4 : c2 + 1 ≠ num := fun he => h2 ⟨hn, he⟩
  omega

/--
Re-running the per-post loop over the same URLs against the filesystem
the first run left behind (with the same fetch world and the same
limit) changes nothing and produces no records: every post persisted by
the first run is now guarded by its Markdown file, and every post the
first run skipped fails or gets skipped identically.
-/
theorem scrapeLoop_rerun (env : ScrapeEnv) (base : String) (num : Nat) :
    ∀ (urls : List String) (fs0 : FS) (es0 : List PostRecord) (c1 c2 : Nat) (fsX : FS),
      fsX.paths = (scrapeLoop env base num urls fs0 es0 c1).1.paths →
      c1 ≤ c2 → (num ≠ 0 → c2 < num) →
      scrapeLoop env base num urls fsX [] c2 = (fsX, []) := by
  intro urls
  induction urls with
  | nil =>
    intro fs0 es0 c1 c2 fsX hX hc hnum
    rfl
  | cons url rest ih =>
    intro fs0 es0 c1 c2 fsX hX hc hnum
    cases hmd : pathExists fs0 (mdPathOf base url) with
    | true =>
      rw [scrapeLoop_cons_exists env base num url rest fs0 es0 c1 hmd] at hX
      by_cases hstop1 : num ≠ 0 ∧ c1 + 1 = num
      · rw [if_pos hstop1] at hX
        have hmdX : pathExists fsX (mdPathOf base url) = true := by
          rw [pathExists_of_paths_eq hX]
          exact hmd
        rw [scrapeLoop_cons_exists env base num url rest fsX [] c2 hmdX,
          if_pos (stop_transfer hc hnum hstop1)]
      · rw [if_neg hstop1] at hX
        have hmdX : pathExists fsX (mdPathOf base url) = true := by
          rw [pathExists_of_paths_eq hX]
          exact scrapeLoop_paths_mono env base num rest fs0 _ _ _ hmd
        rw [scrapeLoop_cons_exists env base num url rest fsX [] c2 hmdX]
        by_cases hstop2 : num ≠ 0 ∧ c2 + 1 = num
        · rw [if_pos hstop2]
        · rw [if_neg hstop2]
          exact ih fs0 _ (c1 + 1) (c2 + 1) fsX hX (Nat.succ_le_succ hc)
            (budget_step hnum hstop2)
    | false =>
      cases hfetch : env.get_url_soup url with
      | error e =>
        rw [scrapeLoop_cons_err env base num url rest fs0 es0 c1 e
          (tryProcessUrl_err_fetch env base url fs0 e hmd hfetch)] at hX
        by_cases hstop1 : num ≠ 0 ∧ c1 + 1 = num
        · rw [if_pos hstop1] at hX
          have hmdX : pathExists fsX (mdPathOf base url) = false := by
            rw [pathExists_of_paths_eq hX]
            exact hmd
          rw [scrapeLoop_cons_err env base num url rest fsX [] c2 e
            (tryProcessUrl_err_fetch env base url fsX e hmdX hfetch),
            if_pos (stop_transfer hc hnum hstop1)]
        · rw [if_neg hstop1] at hX
          cases hmdX : pathExists fsX (mdPathOf base url) with
          | true =>
            rw [scrapeLoop_cons_exists env base num url rest fsX [] c2 hmdX]
            by_cases hstop2 : num ≠ 0 ∧ c2 + 1 = num
            · rw [if_pos hstop2]
            · rw [if_neg hstop2]
              exact ih fs0 es0 (c1 + 1) (c2 + 1) fsX hX (Nat.succ_le_succ hc)
                (budget_step hnum hstop2)
          | false =>
            rw [scrapeLoop_cons_err env base num url rest fsX [] c2 e
              (tryProcessUrl_err_fetch env base url fsX e hmdX hfetch)]
            by_cases hstop2 : num ≠ 0 ∧ c2 + 1 = num
            · rw [if_pos hstop2]
            · rw [if_neg hstop2]
              exact ih fs0 es0 (c1 + 1) (c2 + 1) fsX hX (Nat.succ_le_succ hc)
                (budget_step hnum hstop2)
      | ok osoup =>
        cases osoup with
        | none =>
          rw [scrapeLoop_cons_skip env base num url rest fs0 fs0 es0 c1
            (tryProcessUrl_skip_paywall env base url fs0 hmd hfetch)] at hX
          cases hmdX : pathExists fsX (mdPathOf base url) with
          | true =>
            rw [scrapeLoop_cons_exists env base num url rest fsX [] c2 hmdX]
            by_cases hstop2 : num ≠ 0 ∧ c2 + 1 = num
            · rw [if_pos hstop2]
            · rw [if_neg hstop2]
              exact ih fs0 es0 c1 (c2 + 1) fsX hX (Nat.le_succ_of_le hc)
                (budget_step hnum hstop2)
          | false =>
            rw [scrapeLoop_cons_skip env base num url rest fsX fsX [] c2
              (tryProcessUrl_skip_paywall env base url fsX hmdX hfetch)]
            exact ih fs0 es0 c1 c2 fsX hX hc hnum
        | some soup =>
          cases hext : extract_post_data env.html2text soup with
          | none =>
            rw [scrapeLoop_cons_err env base num url rest fs0 es0 c1 _
              (tryProcessUrl_err_extract env base url fs0 soup hmd hfetch hext)] at hX
            by_cases hstop1 : num ≠ 0 ∧ c1 + 1 = num
            · rw [if_pos hstop1] at hX
              have hmdX : pathExists fsX (mdPathOf base url) = false := by
                rw [pathExists_of_paths_eq hX]
                exact hmd
              rw [scrapeLoop_cons_err env base num url rest fsX [] c2 _
                (tryProcessUrl_err_extract env base url fsX soup hmdX hfetch hext),
                if_pos (stop_transfer hc hnum hstop1)]
            · rw [if_neg hstop1] at hX
              cases hmdX : pathExists fsX (mdPathOf base url) with
              | true =>
                rw [scrapeLoop_cons_exists env base num url rest fsX [] c2 hmdX]
                by_cases hstop2 : num ≠ 0 ∧ c2 + 1 = num
                · rw [if_pos hstop2]
                · rw [if_neg hstop2]
                  exact ih fs0 es0 (c1 + 1) (c2 + 1) fsX hX (Nat.succ_le_succ hc)
                    (budget_step hnum hstop2)
              | false =>
                rw [scrapeLoop_cons_err env base num url rest fsX [] c2 _
                  (tryProcessUrl_err_extract env base url fsX soup hmdX hfetch hext)]
                by_cases hstop2 : num ≠ 0 ∧ c2 + 1 = num
                · rw [if_pos hstop2]
                · rw [if_neg hstop2]
                  exact ih fs0 es0 (c1 + 1) (c2 + 1) fsX hX (Nat.succ_le_succ hc)
                    (budget_step hnum hstop2)
          | some quint =>
            obtain ⟨t, s, l, d, m⟩ := quint
            have hw := tryProcessUrl_success env base url fs0 soup t s l d m hmd hfetch hext
            rw [scrapeLoop_cons_counted _ _ _ _ _ _ _ _ _ _ hw] at hX
            have hmdW : pathExists (save_to_html_file base
                (save_to_file fs0 (mdPathOf base url) m) (htmlPathOf base url)
                (env.markdown m)) (mdPathOf base url) = true :=
              pathExists_save_to_html_file_mono _ _ _ _ _
                (pathExists_save_to_file_self fs0 (mdPathOf base url) m)
            by_cases hstop1 : num ≠ 0 ∧ c1 + 1 = num
            · rw [if_pos hstop1] at hX
              have hmdX : pathExists fsX (mdPathOf base url) = true := by
                rw [pathExists_of_paths_eq hX]
                exact hmdW
              rw [scrapeLoop_cons_exists env base num url rest fsX [] c2 hmdX,
                if_pos (stop_transfer hc hnum hstop1)]
            · rw [if_neg hstop1] at hX
              have hmdX : pathExists fsX (mdPathOf base url) = true := by
                rw [pathExists_of_paths_eq hX]
                exact scrapeLoop_paths_mono env base num rest _ _ _ _ hmdW
              rw [scrapeLoop_cons_exists env base num url rest fsX [] c2 hmdX]
              by_cases hstop2 : num ≠ 0 ∧ c2 + 1 = num
              · rw [if_pos hstop2]
              · rw [if_neg hstop2]
                exact ih _ _ (c1 + 1) (c2 + 1) fsX hX (Nat.succ_le_succ hc)
                  (budget_step hnum hstop2)

theorem files_save_essays (fs : FS) (es : List PostRecord) :
    (save_essays_data_to_json fs es).files = fs.files := by
  unfold save_essays_data_to_json
  split <;> rfl

theorem paths_save_essays (fs : FS) (es : List PostRecord) :
    (save_essays_data_to_json fs es).paths = fs.paths := by
  unfold FS.paths
  rw [files_save_essays]

theorem index_save_essays_isSome (fs : FS) (es : List PostRecord) :
    (save_essays_data_to_json fs es).index.isSome = true := by
  unfold save_essays_data_to_json
  split <;> rfl

/--
C2: idempotence.  Running the persist pipeline (`scrape_posts`) twice
with the same fetch world, URL list and limit is a no-op the second
time: the filesystem — files and JSON index — is unchanged, so there
are no duplicate files and no duplicate index records.  The Markdown
file's existence is the sole checkpoint: when it exists, the iteration
performs no fetch and no write (its outcome is independent of the
entire fetch/converter environment), and `save_to_file` is a no-op when
its target path already exists.
-/
theorem claim_c2_idempotence :
    (∀ (env : ScrapeEnv) (base : String) (post_urls : List String) (num : Nat) (fs0 : FS),
        scrape_posts env base post_urls num (scrape_posts env base post_urls num fs0) =
          scrape_posts env base post_urls num fs0)
    ∧ (∀ (env1 env2 : ScrapeEnv) (base url : String) (fs : FS),
        pathExists fs (mdPathOf base url) = true →
        (tryProcessUrl env1 base url fs = Except.ok (StepOutcome.counted fs none)
         ∧ tryProcessUrl env1 base url fs = tryProcessUrl env2 base url fs))
    ∧ (∀ (fs : FS) (filepath content : String),
        pathExists fs filepath = true → save_to_file fs filepath content = fs) := by
  refine ⟨?_, ?_, ?_⟩
  · intro env base post_urls num fs0
    have hrerun : scrapeLoop env base num post_urls
        (save_essays_data_to_json (scrapeLoop env base num post_urls fs0 [] 0).1
          (scrapeLoop env base num post_urls fs0 [] 0).2) [] 0 =
        (save_essays_data_to_json (scrapeLoop env base num post_urls fs0 [] 0).1
          (scrapeLoop env base num post_urls fs0 [] 0).2, []) :=
      scrapeLoop_rerun env base num post_urls fs0 [] 0 0 _
        (paths_save_essays _ _) (Nat.le_refl 0) (fun hn => Nat.pos_of_ne_zero hn)
    simp only [scrape_posts, hrerun]
    obtain ⟨idx, hidx⟩ := Option.isSome_iff_exists.mp
      (index_save_essays_isSome (scrapeLoop env base num post_urls fs0 [] 0).1
        (scrapeLoop env base num post_urls fs0 [] 0).2)
    generalize hout : save_essays_data_to_json (scrapeLoop env base num post_urls fs0 [] 0).1
      (scrapeLoop env base num post_urls fs0 [] 0).2 = out1 at hidx ⊢
    unfold save_essays_data_to_json
    rw [hidx]
    cases out1 with
    | mk files index =>
      simp only [List.filter_nil, List.append_nil]
      simp only at hidx
      rw [hidx]
  · intro env1 env2 base url fs h
    refine ⟨tryProcessUrl_of_exists env1 base url fs h, ?_⟩
    rw [tryProcessUrl_of_exists env1 base url fs h, tryProcessUrl_of_exists env2 base url fs h]
  · intro fs filepath content h
    exact paths_save_to_file_exists fs filepath content h

/-- Witness for C2: re-running the concrete three-post scrape changes
nothing; an iteration whose Markdown target exists is a no-op counted
skip; `save_to_file` on an existing path is the identity. -/
theorem claim_c2_witness :
    scrape_posts exEnv exBase exUrls 0 (scrape_posts exEnv exBase exUrls 0 emptyFS) =
        scrape_posts exEnv exBase exUrls 0 emptyFS
    ∧ tryProcessUrl exEnv exBase "https://example.substack.com/p/one" fsWithOneMd =
        Except.ok (StepOutcome.counted fsWithOneMd none)
    ∧ save_to_file fsWithOneMd "substacks/example/markdown/one.md" "other" = fsWithOneMd := by
  refine ⟨claim_c2_idempotence.1 exEnv exBase exUrls 0 emptyFS, ?_, ?_⟩
  · exact (claim_c2_idempotence.2.1 exEnv exEnv exBase
      "https://example.substack.com/p/one" fsWithOneMd (by decide)).1
  · exact claim_c2_idempotence.2.2 fsWithOneMd _ "other" (by decide)

/-! ## Lemmas about the netloc model and `extract_main_part` -/

theorem takeWhile_append_all {α : Type} (p : α → Bool) :
    ∀ (a b : List α), (∀ c ∈ a, p c = true) →
      (a ++ b).takeWhile p = a ++ b.takeWhile p := by
  intro a
  induction a with
  | nil => intro b h; rfl
  | cons x xs ih =>
    intro b h
    have hx := h x (List.mem_cons_self x xs)
    simp only [List.cons_append, List.takeWhile_cons, hx, if_true]
    rw [ih b (fun c hc => h c (List.mem_cons_of_mem x hc))]

theorem alphanum_not_netlocEnd {c : Char} (h : c.isAlphanum = true) : isNetlocEnd c = false := by
  unfold isNetlocEnd
  rcases eq_or_ne c '/' with rfl | h1
  · exact absurd h (by decide)
  rcases eq_or_ne c '?' with rfl | h2
  · exact absurd h (by decide)
  rcases eq_or_ne c '#' with rfl | h3
  · exact absurd h (by decide)
  simp [beq_eq_false_iff_ne.mpr h1, beq_eq_false_iff_ne.mpr h2, beq_eq_false_iff_ne.mpr h3]

theorem alphanum_ne_dot {c : Char} (h : c.isAlphanum = true) : c ≠ '.' := by
  rintro rfl
  exact absurd h (by decide)

theorem splitOnChar_append_sep (sep : Char) :
    ∀ (a b : List Char), sep ∉ a →
      splitOnChar sep (a ++ sep :: b) = a :: splitOnChar sep b := by
  intro a
  induction a with
  | nil =>
    intro b h
    simp [splitOnChar]
  | cons x xs ih =>
    intro b h
    have hx : ¬(x = sep) := fun he => h (he ▸ List.mem_cons_self x xs)
    simp only [List.cons_append, splitOnChar, if_neg hx, List.append_eq]
    rw [ih b (fun hm => h (List.mem_cons_of_mem x hm))]

theorem urlNetloc_https (tail : List Char) :
    urlNetloc ("https://".toList ++ tail) = tail.takeWhile (fun c => !isNetlocEnd c) := rfl

theorem urlNetloc_https_host (host : List Char) (hh : ∀ c ∈ host, isNetlocEnd c = false) :
    urlNetloc ("https://".toList ++ (host ++ ['/'])) = host := by
  rw [urlNetloc_https,
    takeWhile_append_all _ host ['/'] (fun c hc => by rw [hh c hc]; rfl)]
  rw [show List.takeWhile (fun c => !isNetlocEnd c) ['/'] = [] from rfl, List.append_nil]

theorem extract_main_part_https (host : List Char) (hh : ∀ c ∈ host, isNetlocEnd c = false) :
    extract_main_part (String.mk ("https://".toList ++ (host ++ ['/']))) =
      String.mk (extract_main_part_parts (splitOnChar '.' host)) := by
  unfold extract_main_part
  have hn : urlNetloc (String.mk ("https://".toList ++ (host ++ ['/']))).toList = host := by
    show urlNetloc ("https://".toList ++ (host ++ ['/'])) = host
    exact urlNetloc_https_host host hh
  rw [hn]

theorem extract_parts_substack (name : List Char) :
    extract_main_part_parts [name, "substack".toList, "com".toList] = name := by
  unfold extract_main_part_parts
  rw [if_pos ⟨(by decide : (2 : Nat) ≤ 3), rfl, rfl⟩]
  rfl

theorem extract_parts_couk (dom : List Char) (h1 : dom ≠ "www".toList) :
    extract_main_part_parts [dom, "co".toList, "uk".toList] = dom := by
  simp only [extract_main_part_parts]
  rw [if_neg (fun hc => absurd hc.2.1 (by decide : ¬("co".toList = "substack".toList)))]
  have hwww : ¬([dom, "co".toList, "uk".toList].length ≥ 2 ∧
      [dom, "co".toList, "uk".toList].headD [] = "www".toList) := fun hc => h1 hc.2
  rw [if_neg hwww]
  rw [if_pos ⟨(by decide : (2 : Nat) ≤ 3), (by decide : (3 : Nat) ≤ 3),
    (by decide : "co".toList ∈ multiTldSeconds)⟩]
  rfl

theorem extract_parts_sub_dom_com (sub dom : List Char) (h1 : sub ≠ "www".toList)
    (h2 : dom ≠ "substack".toList) (h3 : dom ∉ multiTldSeconds) :
    extract_main_part_parts [sub, dom, "com".toList] = dom := by
  simp only [extract_main_part_parts]
  rw [if_neg (fun hc => h2 hc.2.1)]
  have hwww : ¬([sub, dom, "com".toList].length ≥ 2 ∧
      [sub, dom, "com".toList].headD [] = "www".toList) := fun hc => h1 hc.2
  rw [if_neg hwww]
  rw [if_neg (fun hc => h3 hc.2.2)]
  rw [if_pos ⟨(by decide : (2 : Nat) ≤ 3), (by decide : (2 : Nat) ≤ 3)⟩]
  rfl

theorem extract_parts_www (dom : List Char) (h2 : dom ≠ "substack".toList) :
    extract_main_part_parts ["www".toList, dom, "com".toList] = dom := by
  simp only [extract_main_part_parts]
  rw [if_neg (fun hc => h2 hc.2.1)]
  have hwww : (["www".toList, dom, "com".toList].length ≥ 2 ∧
      ["www".toList, dom, "com".toList].headD [] = "www".toList) :=
    ⟨(by decide : (2 : Nat) ≤ 3), rfl⟩
  rw [if_pos hwww]
  rw [if_neg (fun hc => absurd hc.2.1 (by decide : ¬((3 : Nat) ≤ 2)))]
  rw [if_pos ⟨(by decide : (2 : Nat) ≤ 3), (by decide : (2 : Nat) ≤ 2)⟩]
  rfl

/--
Counterexample to the last clause of C10 as stated: for a URL with an
EMPTY host, `extract_main_part` returns the empty string, not
`"unknown"` — splitting the empty netloc yields the one-element list
`[""]`, so the `'unknown'` fallback (guarded by an empty parts list) is
unreachable.
-/
theorem claim_c10_counterexample :
    urlNetloc "https://".toList = []
    ∧ extract_main_part "https://" = ""
    ∧ extract_main_part "https://" ≠ "unknown" := ⟨rfl, rfl, by decide⟩

/--
C10 as amended: site-name derivation.  For a URL with host
`name.substack.com` the subdomain `name` is returned (alphanumeric
labels); for host `dom.co.uk` — a recognized multi-part TLD — the label
before it is returned; for `sub.dom.com` the second-to-last label is
returned; a leading `www` label is stripped (`www.dom.com` yields
`dom`); the function is total, and for an EMPTY host it returns the
empty string (the `'unknown'` fallback is unreachable because splitting
an empty host yields a one-element list).
-/
theorem claim_c10_site_name_derivation :
    (∀ name : List Char, name ≠ [] → (∀ c ∈ name, c.isAlphanum = true) →
        extract_main_part (String.mk ("https://".toList ++
          ((name ++ ".substack.com".toList) ++ ['/']))) = String.mk name)
    ∧ (∀ dom : List Char, dom ≠ [] → (∀ c ∈ dom, c.isAlphanum = true) →
        dom ≠ "www".toList →
        extract_main_part (String.mk ("https://".toList ++
          ((dom ++ ".co.uk".toList) ++ ['/']))) = String.mk dom)
    ∧ (∀ sub dom : List Char, sub ≠ [] → dom ≠ [] →
        (∀ c ∈ sub, c.isAlphanum = true) → (∀ c ∈ dom, c.isAlphanum = true) →
        sub ≠ "www".toList → dom ≠ "substack".toList → dom ∉ multiTldSeconds →
        extract_main_part (String.mk ("https://".toList ++
          ((sub ++ '.' :: (dom ++ ".com".toList)) ++ ['/']))) = String.mk dom)
    ∧ (∀ dom : List Char, dom ≠ [] → (∀ c ∈ dom, c.isAlphanum = true) →
        dom ≠ "substack".toList →
        extract_main_part (String.mk ("https://".toList ++
          (("www".toList ++ '.' :: (dom ++ ".com".toList)) ++ ['/']))) = String.mk dom)
    ∧ (∀ url : String, urlNetloc url.toList = [] → extract_main_part url = "") := by
  refine ⟨?_, ?_, ?_, ?_, ?_⟩
  · intro name hne halpha
    have hh : ∀ c ∈ name ++ ".substack.com".toList, isNetlocEnd c = false := by
      intro c hc
      rcases List.mem_append.mp hc with h | h
      · exact alphanum_not_netlocEnd (halpha c h)
      · exact (by decide : ∀ c ∈ ".substack.com".toList, isNetlocEnd c = false) c h
    rw [extract_main_part_https _ hh]
    have hdotfree : '.' ∉ name := fun hm => alphanum_ne_dot (halpha '.' hm) rfl
    rw [show (".substack.com".toList : List Char) = '.' :: "substack.com".toList from rfl,
      splitOnChar_append_sep '.' name _ hdotfree,
      show splitOnChar '.' "substack.com".toList = ["substack".toList, "com".toList] from rfl,
      extract_parts_substack]
  · intro dom hne halpha hwww
    have hh : ∀ c ∈ dom ++ ".co.uk".toList, isNetlocEnd c = false := by
      intro c hc
      rcases List.mem_append.mp hc with h | h
      · exact alphanum_not_netlocEnd (halpha c h)
      · exact (by decide : ∀ c ∈ ".co.uk".toList, isNetlocEnd c = false) c h
    rw [extract_main_part_https _ hh]
    have hdotfree : '.' ∉ dom := fun hm => alphanum_ne_dot (halpha '.' hm) rfl
    rw [show (".co.uk".toList : List Char) = '.' :: "co.uk".toList from rfl,
      splitOnChar_append_sep '.' dom _ hdotfree,
      show splitOnChar '.' "co.uk".toList = ["co".toList, "uk".toList] from rfl,
      extract_parts_couk dom hwww]
  · intro sub dom hs hd halphas halphad hwww hsub htld
    have hh : ∀ c ∈ sub ++ '.' :: (dom ++ ".com".toList), isNetlocEnd c = false := by
      intro c hc
      rcases List.mem_append.mp hc with h | h
      · exact alphanum_not_netlocEnd (halphas c h)
      · rcases List.mem_cons.mp h with rfl | h2
        · decide
        · rcases List.mem_append.mp h2 with h3 | h4
          · exact alphanum_not_netlocEnd (halphad c h3)
          · exact (by decide : ∀ c ∈ ".com".toList, isNetlocEnd c = false) c h4
    rw [extract_main_part_https _ hh]
    have hdots : '.' ∉ sub := fun hm => alphanum_ne_dot (halphas '.' hm) rfl
    have hdotd : '.' ∉ dom := fun hm => alphanum_ne_dot (halphad '.' hm) rfl
    rw [splitOnChar_append_sep '.' sub _ hdots,
      show (".com".toList : List Char) = '.' :: "com".toList from rfl,
      splitOnChar_append_sep '.' dom _ hdotd,
      show splitOnChar '.' "com".toList = ["com".toList] from rfl,
      extract_parts_sub_dom_com sub dom hwww hsub htld]
  · intro dom hne halpha hsub
    have hh : ∀ c ∈ "www".toList ++ '.' :: (dom ++ ".com".toList), isNetlocEnd c = false := by
      intro c hc
      rcases List.mem_append.mp hc with h | h
      · exact (by decide : ∀ c ∈ "www".toList, isNetlocEnd c = false) c h
      · rcases List.mem_cons.mp h with rfl | h2
        · decide
        · rcases List.mem_append.mp h2 with h3 | h4
          · exact alphanum_not_netlocEnd (halpha c h3)
          · exact (by decide : ∀ c ∈ ".com".toList, isNetlocEnd c = false) c h4
    rw [extract_main_part_https _ hh]
    have hdotd : '.' ∉ dom := fun hm => alphanum_ne_dot (halpha '.' hm) rfl
    rw [splitOnChar_append_sep '.' "www".toList _ (by decide),
      show (".com".toList : List Char) = '.' :: "com".toList from rfl,
      splitOnChar_append_sep '.' dom _ hdotd,
      show splitOnChar '.' "com".toList = ["com".toList] from rfl,
      extract_parts_www dom hsub]
  · intro url h
    unfold extract_main_part
    rw [h]
    rfl

/-- Witness for C10 (amended) at concrete hosts: `garymarcus.substack.com`,
`example.co.uk`, `news.acme.com`, `www.shop.com`. -/
theorem claim_c10_witness :
    extract_main_part (String.mk ("https://".toList ++
        (("garymarcus".toList ++ ".substack.com".toList) ++ ['/']))) =
      String.mk "garymarcus".toList
    ∧ extract_main_part (String.mk ("https://".toList ++
        (("example".toList ++ ".co.uk".toList) ++ ['/']))) = String.mk "example".toList
    ∧ extract_main_part (String.mk ("https://".toList ++
        (("news".toList ++ '.' :: ("acme".toList ++ ".com".toList)) ++ ['/']))) =
      String.mk "acme".toList
    ∧ extract_main_part (String.mk ("https://".toList ++
        (("www".toList ++ '.' :: ("shop".toList ++ ".com".toList)) ++ ['/']))) =
      String.mk "shop".toList := by
  refine ⟨?_, ?_, ?_, ?_⟩
  · exact claim_c10_site_name_derivation.1 _ (by decide) (by decide)
  · exact claim_c10_site_name_derivation.2.1 _ (by decide) (by decide) (by decide)
  · exact claim_c10_site_name_derivation.2.2.1 _ _ (by decide) (by decide) (by decide)
      (by decide) (by decide) (by decide) (by decide)
  · exact claim_c10_site_name_derivation.2.2.2.1 _ (by decide) (by decide) (by decide)
